import Mathlib

/-!
# Verification of the snuffles orchestration core

A shallow embedding of the `snuffles` multi-agent orchestration core
(`src/snuffles/`): the Message/Event data model (`message.py`), the agent
and tool configuration (`agent.py`), the think–act–observe execution loop
(`loop.py`), the orchestrator routing step (`orchestrator.py`) and the
timer / file-watch triggers (`trigger.py`).

Modelling conventions:
* The external model backend (`llm.py`'s `chat_completion`, network I/O)
  is a parameter: an `Oracle` mapping (model id, context, offered tool
  schemas) to an `LLMResponse`, exactly the shape `run_loop` consumes.
* A tool's `execute` together with the `json.loads` argument parsing that
  immediately precedes it sit inside one `try/except` in `loop.py`; the
  pair is modelled as one fallible function `Tool.run : String → Except
  String String` from the raw argument string to a result, where
  `Except.error e` carries the description `str(e)` of whatever exception
  was raised (by parsing or by the tool itself).
* Wall-clock timestamps on `Message`/`Event` are omitted: no claim
  observes them, and they come from `datetime.now`.
* `Event.data` is a Python dict with serialisable values; it is modelled
  as an association list of string keys to string renderings.
* The asyncio concurrency of the triggers is modelled as a labelled
  transition system on the trigger's program counter and `_running` flag,
  with `stop()` an interleaved step.
-/

/-- `Message` from `message.py`: sender, addressee and text payload
(the `timestamp` field, defaulted from the wall clock, is omitted). -/
structure Message where
  sender : String
  «to» : String
  content : String
deriving DecidableEq, Repr

/-- `Event` from `message.py`: an append-only log record. `data` values
are rendered as strings. The `timestamp` field is omitted. -/
structure Event where
  kind : String
  agent : String := ""
  data : List (String × String) := []
deriving DecidableEq, Repr

/-- `FunctionCall` from `llm.py`: a tool name and its raw JSON-encoded
argument string. -/
structure FunctionCall where
  name : String
  arguments : String
deriving DecidableEq, Repr

/-- `ToolCall` from `llm.py`: one model-requested tool invocation. -/
structure ToolCall where
  id : String
  function : FunctionCall
deriving DecidableEq, Repr

/-- `LLMResponse` from `llm.py`: optional text plus zero or more tool
invocations. -/
structure LLMResponse where
  content : Option String
  tool_calls : List ToolCall := []
deriving DecidableEq, Repr

/-- One item of the conversation context list built by `run_loop`
(`messages` in `loop.py`): the role-tagged dicts of the OpenAI chat
format. The assistant item is `LLMResponse.to_message_dict`; the tool
item is the dict literal appended in the OBSERVE step. -/
inductive CtxItem where
  | system (content : String)
  | user (content : String)
  | assistant (content : Option String) (tool_calls : List ToolCall)
  | tool (tool_call_id : String) (content : String)
deriving DecidableEq, Repr

/-- `Tool` from `agent.py`. `parameters` (a JSON-Schema object) is kept
as an opaque string. `run` models `json.loads(arguments)` followed by
`execute(**args)` under `loop.py`'s single `try/except`: `Except.error e`
is any exception either step raised, carrying its description. -/
structure Tool where
  name : String
  description : String
  parameters : String
  run : String → Except String String

/-- `Agent` from `agent.py`: identity + instructions + tools. -/
structure Agent where
  name : String
  instructions : String
  tools : List Tool := []
  model : String := "global.anthropic.claude-opus-4-6-v1"
  max_iterations : Nat := 10

/-- One entry of `Agent.tool_schemas()` (OpenAI function-calling format),
keeping the fields the schema carries. -/
structure ToolSchema where
  name : String
  description : String
  parameters : String
deriving DecidableEq, Repr

/-- `Agent.tool_schemas` from `agent.py`. -/
def Agent.tool_schemas (a : Agent) : List ToolSchema :=
  a.tools.map fun t => ⟨t.name, t.description, t.parameters⟩

/-- `Agent.get_tool` from `agent.py`: first tool whose name matches by
exact string comparison, else `none`. -/
def Agent.get_tool (a : Agent) (name : String) : Option Tool :=
  a.tools.find? fun t => t.name == name

/-- The external model backend (`chat_completion` in `llm.py`, out of
scope per the spec): model id, conversation context, optionally offered
tool schemas ↦ response. -/
def Oracle : Type :=
  String → List CtxItem → Option (List ToolSchema) → LLMResponse

/-- The result string for one tool invocation, from the ACT step of
`run_loop` (`loop.py`): unknown tool → fixed error text naming the tool;
known tool → its result, with any raised failure caught and rendered as
`"Error: " ++ description`. -/
def toolCallResult (agent : Agent) (tc : ToolCall) : String :=
  match agent.get_tool tc.function.name with
  | none => "Error: unknown tool '" ++ tc.function.name ++ "'"
  | some tool =>
    match tool.run tc.function.arguments with
    | Except.ok r => r
    | Except.error e => "Error: " ++ e

/-- The ACT/OBSERVE body of `run_loop` for one iteration's tool-call
list: for each invocation in order, emit `tool_call`, resolve and run the
tool, emit `tool_result`, and append a tool-role context item carrying
the result. Returns the appended context items and the emitted events,
both in source order. -/
def actPhase (agent : Agent) (iteration : Nat) :
    List ToolCall → List CtxItem × List Event
  | [] => ([], [])
  | tc :: rest =>
    let result := toolCallResult agent tc
    let tcEv : Event :=
      { kind := "tool_call", agent := agent.name,
        data := [("tool", tc.function.name), ("args", tc.function.arguments),
                 ("iteration", toString iteration)] }
    let trEv : Event :=
      { kind := "tool_result", agent := agent.name,
        data := [("tool", tc.function.name), ("result", result.take 500),
                 ("iteration", toString iteration)] }
    let step := actPhase agent iteration rest
    (CtxItem.tool tc.id result :: step.1, tcEv :: trEv :: step.2)

/-- The THINK step's backend call in `run_loop` (`loop.py`):
`chat_completion(model=agent.model, messages=messages,
tools=agent.tool_schemas() if agent.tools else None)`. -/
def loopResponse (agent : Agent) (oracle : Oracle)
    (messages : List CtxItem) : LLMResponse :=
  oracle agent.model messages
    (if agent.tools.isEmpty then none else some agent.tool_schemas)

/-- The `for iteration in range(1, max_iterations + 1)` loop of
`run_loop` (`loop.py`), with `fuel` the number of iterations left and
`iteration` the 1-based index. Fuel exhausted = the Python loop finished
without returning: emit `loop_max_iterations` and return the canned
limit-reached Message. Returns the events emitted from this point on and
the loop's result. -/
def loopFrom (agent : Agent) (trigger : Message) (oracle : Oracle) :
    Nat → Nat → List CtxItem → List Event × Option Message
  | 0, _, _ =>
    ([{ kind := "loop_max_iterations", agent := agent.name,
        data := [("iterations", toString agent.max_iterations)] }],
     some ⟨agent.name, trigger.sender, "I reached my iteration limit."⟩)
  | fuel + 1, iteration, messages =>
    let callEv : Event :=
      { kind := "llm_call", agent := agent.name,
        data := [("iteration", toString iteration),
                 ("message_count", toString messages.length)] }
    let response := loopResponse agent oracle messages
    if response.tool_calls.isEmpty then
      ([callEv,
        { kind := "llm_response", agent := agent.name,
          data := [("content", (response.content.getD "").take 500)] }],
       some ⟨agent.name, trigger.sender, response.content.getD ""⟩)
    else
      let messages' :=
        messages ++ [CtxItem.assistant response.content response.tool_calls]
      let act := actPhase agent iteration response.tool_calls
      let rest := loopFrom agent trigger oracle fuel (iteration + 1)
        (messages' ++ act.1)
      (callEv :: (act.2 ++ rest.1), rest.2)

/-- `run_loop` from `loop.py`: seed the context with the system
instructions and the trigger content, emit `loop_start`, and run the
bounded think–act–observe loop. Returns the emitted events in order and
the final response (declared `Message | None` in the source). -/
def run_loop (agent : Agent) (trigger : Message) (oracle : Oracle) :
    List Event × Option Message :=
  let messages : List CtxItem :=
    [CtxItem.system agent.instructions, CtxItem.user trigger.content]
  let startEv : Event :=
    { kind := "loop_start", agent := agent.name,
      data := [("trigger", trigger.content.take 200)] }
  let body := loopFrom agent trigger oracle agent.max_iterations 1 messages
  (startEv :: body.1, body.2)

/-- The agent registry of `Orchestrator` (`orchestrator.py`): the dict
`self.agents`, as an association list from name to agent. -/
def Registry : Type := List (String × Agent)

/-- `self.agents.get(name)`: dict lookup by agent name. -/
def lookupAgent (agents : Registry) (name : String) : Option Agent :=
  (List.find? (fun p => p.1 == name) agents).map Prod.snd

/-- An effect of one routing step on the `Bus` (`bus.py`): `reply`
publishes on the outbound channel (and to all subscribers); `send`
re-enqueues on the inbound channel. -/
inductive BusAction where
  | reply (m : Message)
  | send (m : Message)
deriving DecidableEq, Repr

/-- The `message_routed` event recorded at the top of `Orchestrator.run`'s
loop body. -/
def messageRoutedEvent (m : Message) : Event :=
  { kind := "message_routed",
    data := [("from", m.sender), ("to", m.«to»),
             ("content", m.content.take 200)] }

/-- The system-authored error reply for a message addressed to an
unregistered agent (`orchestrator.py`). -/
def noAgentReply (m : Message) : Message :=
  ⟨"system", m.sender, "No agent named '" ++ m.«to» ++ "'"⟩

/-- One iteration of `Orchestrator.run`'s `while self._running` loop
(`orchestrator.py`), for one received message: emit `message_routed`,
resolve the addressee. Unresolved → `reply` the system error message and
continue. Resolved → run the agent's execution loop; if it returned a
Message, `reply` it, and additionally `send` it back onto the inbound
channel iff its addressee is a registered agent different from the
original sender. Returns the recorded events and the bus effects in
order. -/
def routeStep (agents : Registry) (oracle : Oracle) (message : Message) :
    List Event × List BusAction :=
  match lookupAgent agents message.«to» with
  | none =>
    ([messageRoutedEvent message], [BusAction.reply (noAgentReply message)])
  | some agent =>
    let looped := run_loop agent message oracle
    match looped.2 with
    | none => (messageRoutedEvent message :: looped.1, [])
    | some response =>
      (messageRoutedEvent message :: looped.1,
       if (lookupAgent agents response.«to»).isSome
           && response.«to» != message.sender then
         [BusAction.reply response, BusAction.send response]
       else
         [BusAction.reply response])

/-- The messages a routing step `reply`s to the outbound channel. -/
def repliesOf (actions : List BusAction) : List Message :=
  actions.filterMap fun a =>
    match a with
    | BusAction.reply m => some m
    | BusAction.send _ => none

/-- The messages a routing step re-`send`s onto the inbound channel. -/
def sendsOf (actions : List BusAction) : List Message :=
  actions.filterMap fun a =>
    match a with
    | BusAction.reply _ => none
    | BusAction.send m => some m

/-- `Orchestrator.run`'s message loop (`orchestrator.py`) driven for at
most `fuel` received messages over an explicit FIFO inbound queue
(`bus.py`'s `_inbound`): pop the head, perform one routing step, append
its re-sent messages at the tail of the queue, and continue. Returns all
recorded events and the outbound (replied) messages, in order. Fuel 0 or
an empty queue stops (in the source the loop would block on `receive()`
or run until `stop()`). -/
def orchestratorRun (agents : Registry) (oracle : Oracle) :
    Nat → List Message → List Event × List Message
  | 0, _ => ([], [])
  | _ + 1, [] => ([], [])
  | fuel + 1, m :: queue =>
    let step := routeStep agents oracle m
    let rest := orchestratorRun agents oracle fuel (queue ++ sendsOf step.2)
    (step.1 ++ rest.1, repliesOf step.2 ++ rest.2)

/-- Program counter of `TimerTrigger.start`'s loop body (`trigger.py`):
at the `while self._running` guard, inside `asyncio.sleep`, at the
`if self._running` check before the send, or exited. -/
inductive TimerPC where
  | guard
  | sleeping
  | check
  | done
deriving DecidableEq, Repr

/-- State of a running `TimerTrigger` task: its program counter and the
`_running` flag, which `stop()` (running interleaved on the same event
loop) can clear at any suspension point. -/
structure TimerState where
  pc : TimerPC
  running : Bool
deriving DecidableEq, Repr

/-- Observable label of one step of the timer system: `send` is
`bus.send(...)` firing; `stopped` is `stop()` clearing the flag; `tau`
is everything else (guard checks, the sleep completing). -/
inductive TimerLabel where
  | tau
  | send
  | stopped
deriving DecidableEq, Repr

/-- Small-step transitions of `TimerTrigger.start` (`trigger.py`)
interleaved with `stop()`. The loop: while the flag is up, sleep, then
send only if the flag is still up after the sleep; `stop()` may clear
the flag at any point. Nothing ever sets the flag back to true. -/
inductive TimerStep : TimerState → TimerLabel → TimerState → Prop where
  | guard_true : TimerStep ⟨TimerPC.guard, true⟩ TimerLabel.tau
      ⟨TimerPC.sleeping, true⟩
  | guard_false : TimerStep ⟨TimerPC.guard, false⟩ TimerLabel.tau
      ⟨TimerPC.done, false⟩
  | sleep_done (r : Bool) : TimerStep ⟨TimerPC.sleeping, r⟩ TimerLabel.tau
      ⟨TimerPC.check, r⟩
  | check_true : TimerStep ⟨TimerPC.check, true⟩ TimerLabel.send
      ⟨TimerPC.guard, true⟩
  | check_false : TimerStep ⟨TimerPC.check, false⟩ TimerLabel.tau
      ⟨TimerPC.guard, false⟩
  | stop (pc : TimerPC) (r : Bool) : TimerStep ⟨pc, r⟩ TimerLabel.stopped
      ⟨pc, false⟩

/-- A finite execution trace of the timer system from a state, as the
list of emitted labels. -/
inductive TimerTraces : TimerState → List TimerLabel → Prop where
  | nil (s : TimerState) : TimerTraces s []
  | cons {s s' : TimerState} {l : TimerLabel} {ls : List TimerLabel}
      (hstep : TimerStep s l s') (htail : TimerTraces s' ls) :
      TimerTraces s (l :: ls)

/-- `FileWatchTrigger` from `trigger.py` (fields in source order; the
modification time, a float in the source, is modelled as a rational). -/
structure FileWatchTrigger where
  agent_name : String
  watch_path : String
  poll_seconds : ℚ := 10
  _running : Bool := false
  _last_mtime : ℚ := 0

/-- The first statement of `FileWatchTrigger.start`: set `_running`. -/
def FileWatchTrigger.startFlag (t : FileWatchTrigger) : FileWatchTrigger :=
  { t with _running := true }

/-- One poll cycle of `FileWatchTrigger.start`'s loop body after the
sleep (`trigger.py`). `file` is the watched path's state at this poll:
`none` if it does not exist, else its modification time and contents.
Sends iff the flag is up, the file exists and its mtime exceeds the last
observed one; records the new mtime when it sends. Returns the updated
trigger and the message sent, if any. -/
def fileWatchPoll (t : FileWatchTrigger) (file : Option (ℚ × String)) :
    FileWatchTrigger × Option Message :=
  match file with
  | none => (t, none)
  | some (mtime, content) =>
    if t._running ∧ mtime > t._last_mtime then
      ({ t with _last_mtime := mtime },
       some ⟨"file_watch", t.agent_name,
         "File changed: " ++ t.watch_path ++ "\n\nContents:\n" ++ content⟩)
    else (t, none)

/-! ## Helper lemmas on the execution loop -/

/-- The ACT phase records only `tool_call`/`tool_result` events: it
contributes no `llm_call` events. -/
lemma actPhase_countP_llm (agent : Agent) (iteration : Nat)
    (tcs : List ToolCall) :
    ((actPhase agent iteration tcs).2.countP
      (fun e => e.kind == "llm_call")) = 0 := by
  induction tcs with
  | nil => simp [actPhase]
  | cons tc rest ih => simp [actPhase, List.countP_cons, ih]

/-- `loopFrom` always records at least one event. -/
lemma loopFrom_events_ne_nil (agent : Agent) (trigger : Message)
    (oracle : Oracle) (fuel iteration : Nat) (messages : List CtxItem) :
    (loopFrom agent trigger oracle fuel iteration messages).1 ≠ [] := by
  cases fuel with
  | zero => simp [loopFrom]
  | succ fuel =>
    by_cases hresp : (loopResponse agent oracle messages).tool_calls.isEmpty
    · simp [loopFrom, hresp]
    · simp [loopFrom, hresp]

/-- Whatever the oracle does, `loopFrom` yields `some` response whose
sender is the agent's name and whose addressee is the trigger's sender. -/
lemma loopFrom_isSome (agent : Agent) (trigger : Message) (oracle : Oracle) :
    ∀ fuel iteration messages,
      ∃ m, (loopFrom agent trigger oracle fuel iteration messages).2 = some m
        ∧ m.sender = agent.name ∧ m.«to» = trigger.sender := by
  intro fuel
  induction fuel with
  | zero =>
    intro iteration messages
    exact ⟨⟨agent.name, trigger.sender, "I reached my iteration limit."⟩,
      rfl, rfl, rfl⟩
  | succ fuel ih =>
    intro iteration messages
    by_cases hresp : (loopResponse agent oracle messages).tool_calls.isEmpty
    · refine ⟨⟨agent.name, trigger.sender,
        (loopResponse agent oracle messages).content.getD ""⟩, ?_, rfl, rfl⟩
      simp only [loopFrom, hresp, if_true]
    · simp only [loopFrom, hresp, if_false]
      exact ih (iteration + 1) _

/-- Appending a nonempty tail with known last element: the last element
of `a :: (l₁ ++ l₂)` is that of `l₂`. -/
lemma getLast?_cons_append_of_some {α : Type} (a : α) (l₁ l₂ : List α)
    (x : α) (h : l₂.getLast? = some x) :
    (a :: (l₁ ++ l₂)).getLast? = some x := by
  rw [← List.cons_append, List.getLast?_append, h]
  rfl

/-- If the oracle always requests at least one tool call, `loopFrom`
with `fuel` iterations left emits exactly `fuel` `llm_call` events, its
last event is `loop_max_iterations`, and it returns the canned
limit-reached message. -/
lemma loopFrom_all_tools (agent : Agent) (trigger : Message)
    (oracle : Oracle)
    (h : ∀ model ctx ts, (oracle model ctx ts).tool_calls ≠ []) :
    ∀ fuel iteration messages,
      ((loopFrom agent trigger oracle fuel iteration messages).1.countP
          (fun e => e.kind == "llm_call") = fuel)
      ∧ ((loopFrom agent trigger oracle fuel iteration messages).1.getLast?.map
          Event.kind = some "loop_max_iterations")
      ∧ ((loopFrom agent trigger oracle fuel iteration messages).2
          = some ⟨agent.name, trigger.sender,
                  "I reached my iteration limit."⟩) := by
  intro fuel
  induction fuel with
  | zero =>
    intro iteration messages
    refine ⟨?_, rfl, rfl⟩
    simp [loopFrom, List.countP_cons]
  | succ fuel ih =>
    intro iteration messages
    have hresp : (loopResponse agent oracle messages).tool_calls.isEmpty
        = false := by
      have hne := h agent.model messages
        (if agent.tools.isEmpty then none else some agent.tool_schemas)
      cases htc : (loopResponse agent oracle messages).tool_calls with
      | nil => exact absurd (by simpa [loopResponse] using htc) hne
      | cons a l => rfl
    have ihc' := (ih (iteration + 1)
      (messages ++ CtxItem.assistant
          (loopResponse agent oracle messages).content
          (loopResponse agent oracle messages).tool_calls ::
        (actPhase agent iteration
          (loopResponse agent oracle messages).tool_calls).1)).1
    refine ⟨?_, ?_, ?_⟩
    · simp [loopFrom, hresp, List.countP_cons, List.countP_append,
        actPhase_countP_llm, ihc']
    · have ihl' := (ih (iteration + 1)
        (messages ++ CtxItem.assistant
            (loopResponse agent oracle messages).content
            (loopResponse agent oracle messages).tool_calls ::
          (actPhase agent iteration
            (loopResponse agent oracle messages).tool_calls).1)).2.1
      obtain ⟨e, he, hke⟩ := Option.map_eq_some'.mp ihl'
      have hLast := getLast?_cons_append_of_some
        ({ kind := "llm_call", agent := agent.name,
           data := [("iteration", toString iteration),
                    ("message_count", toString messages.length)] } : Event)
        (actPhase agent iteration
          (loopResponse agent oracle messages).tool_calls).2
        _ e he
      simp [loopFrom, hresp, hLast, hke]
    · have ihr' := (ih (iteration + 1)
        (messages ++ CtxItem.assistant
            (loopResponse agent oracle messages).content
            (loopResponse agent oracle messages).tool_calls ::
          (actPhase agent iteration
            (loopResponse agent oracle messages).tool_calls).1)).2.2
      simp [loopFrom, hresp, ihr']

/-- The last element of `a :: l` is that of `l` when `l` has one. -/
lemma getLast?_cons_of_some {α : Type} (a : α) (l : List α) (x : α)
    (h : l.getLast? = some x) : (a :: l).getLast? = some x := by
  have : a :: l = [a] ++ l := rfl
  rw [this, List.getLast?_append, h]
  rfl

/-! ## Claim theorems: the execution loop -/

/-- C8: for every agent and trigger message, whenever the backend calls
return normally, `run_loop` returns an actual Message — never `None`,
despite its `Message | None` return type — and on every return path the
Message's `sender` is the agent's name and its `to` is the trigger
message's sender. -/
theorem run_loop_returns_message (agent : Agent) (trigger : Message)
    (oracle : Oracle) :
    ∃ m, (run_loop agent trigger oracle).2 = some m
      ∧ m.sender = agent.name ∧ m.«to» = trigger.sender := by
  obtain ⟨m, hm, hs, ht⟩ := loopFrom_isSome agent trigger oracle
    agent.max_iterations 1
    [CtxItem.system agent.instructions, CtxItem.user trigger.content]
  exact ⟨m, by simpa [run_loop] using hm, hs, ht⟩

/-- C1: for an agent with `max_iterations = N` (`N` positive) and any
trigger, if the backend requests at least one tool call on every call,
the loop emits exactly `N` `llm_call` events, its last event is
`loop_max_iterations`, and it returns the Message with the agent's name
as sender, the trigger's sender as addressee, and the fixed
iteration-limit text. -/
theorem run_loop_max_iterations (agent : Agent) (trigger : Message)
    (oracle : Oracle) (N : Nat) (hpos : 0 < N)
    (hmax : agent.max_iterations = N)
    (htools : ∀ model ctx ts, (oracle model ctx ts).tool_calls ≠ []) :
    ((run_loop agent trigger oracle).1.countP
        (fun e => e.kind == "llm_call") = N)
    ∧ ((run_loop agent trigger oracle).1.getLast?.map Event.kind
        = some "loop_max_iterations")
    ∧ ((run_loop agent trigger oracle).2
        = some ⟨agent.name, trigger.sender,
            "I reached my iteration limit."⟩) := by
  subst hmax
  obtain ⟨hc, hl, hr⟩ := loopFrom_all_tools agent trigger oracle htools
    agent.max_iterations 1
    [CtxItem.system agent.instructions, CtxItem.user trigger.content]
  obtain ⟨e, he, hke⟩ := Option.map_eq_some'.mp hl
  have hlast := getLast?_cons_of_some
    ({ kind := "loop_start", agent := agent.name,
       data := [("trigger", trigger.content.take 200)] } : Event) _ e he
  refine ⟨?_, ?_, ?_⟩
  · simp [run_loop, List.countP_cons, hc]
  · simp [run_loop, hlast, hke]
  · simpa [run_loop] using hr

def wTrigger : Message := ⟨"user", "a", "hi"⟩

def wAgentNoTools : Agent :=
  { name := "a", instructions := "i", tools := [], model := "m",
    max_iterations := 2 }

/-- An oracle that always requests one more tool call. -/
def wOracleTools : Oracle :=
  fun _ _ _ => { content := none, tool_calls := [⟨"1", ⟨"t", "{}"⟩⟩] }

theorem run_loop_max_iterations_witness :
    ((run_loop wAgentNoTools wTrigger wOracleTools).1.countP
        (fun e => e.kind == "llm_call") = 2)
    ∧ ((run_loop wAgentNoTools wTrigger wOracleTools).1.getLast?.map
        Event.kind = some "loop_max_iterations")
    ∧ ((run_loop wAgentNoTools wTrigger wOracleTools).2
        = some ⟨"a", "user", "I reached my iteration limit."⟩) :=
  run_loop_max_iterations wAgentNoTools wTrigger wOracleTools 2
    (by decide) rfl (fun model ctx ts => by simp [wOracleTools])

/-- C3: for a model-requested invocation whose tool name matches one of
the agent's tools, any failure raised during argument parsing or the
tool's `execute` call is caught and converted into the result string
`"Error: " ++ description`; the loop does not abort — that text is
appended to the context as the invocation's tool-role result and the ACT
phase continues with the remaining invocations. -/
theorem tool_failure_recovered (agent : Agent) (iteration : Nat)
    (tc : ToolCall) (rest : List ToolCall) (tool : Tool) (e : String)
    (hfind : agent.get_tool tc.function.name = some tool)
    (hrun : tool.run tc.function.arguments = Except.error e) :
    toolCallResult agent tc = "Error: " ++ e
    ∧ (actPhase agent iteration (tc :: rest)).1
        = CtxItem.tool tc.id ("Error: " ++ e)
            :: (actPhase agent iteration rest).1 := by
  have hres : toolCallResult agent tc = "Error: " ++ e := by
    simp [toolCallResult, hfind, hrun]
  exact ⟨hres, by simp [actPhase, hres]⟩

/-- A tool whose parse-or-execute step always fails. -/
def wFailingTool : Tool :=
  { name := "t", description := "d", parameters := "{}",
    run := fun _ => Except.error "boom" }

def wAgentFailingTool : Agent :=
  { name := "a", instructions := "i", tools := [wFailingTool],
    model := "m", max_iterations := 2 }

def wTc : ToolCall := ⟨"1", ⟨"t", "{}"⟩⟩

theorem tool_failure_recovered_witness :
    toolCallResult wAgentFailingTool wTc = "Error: " ++ "boom"
    ∧ (actPhase wAgentFailingTool 1 (wTc :: [])).1
        = CtxItem.tool wTc.id ("Error: " ++ "boom")
            :: (actPhase wAgentFailingTool 1 []).1 :=
  tool_failure_recovered wAgentFailingTool 1 wTc [] wFailingTool "boom"
    rfl rfl

/-- C4: for a model-requested invocation whose tool name matches none of
the agent's tools (by exact string comparison), the loop does not raise:
the tool-role context item appended for it carries the error text naming
the unknown tool, and the ACT phase proceeds with the remaining
invocations. -/
theorem unknown_tool_recovered (agent : Agent) (iteration : Nat)
    (tc : ToolCall) (rest : List ToolCall)
    (hfind : agent.get_tool tc.function.name = none) :
    toolCallResult agent tc
      = "Error: unknown tool '" ++ tc.function.name ++ "'"
    ∧ (actPhase agent iteration (tc :: rest)).1
        = CtxItem.tool tc.id
            ("Error: unknown tool '" ++ tc.function.name ++ "'")
          :: (actPhase agent iteration rest).1 := by
  have hres : toolCallResult agent tc
      = "Error: unknown tool '" ++ tc.function.name ++ "'" := by
    simp [toolCallResult, hfind]
  exact ⟨hres, by simp [actPhase, hres]⟩

def wTcGhost : ToolCall := ⟨"1", ⟨"ghost", "{}"⟩⟩

theorem unknown_tool_recovered_witness :
    toolCallResult wAgentNoTools wTcGhost
      = "Error: unknown tool '" ++ "ghost" ++ "'"
    ∧ (actPhase wAgentNoTools 1 (wTcGhost :: [])).1
        = CtxItem.tool wTcGhost.id
            ("Error: unknown tool '" ++ "ghost" ++ "'")
          :: (actPhase wAgentNoTools 1 []).1 :=
  unknown_tool_recovered wAgentNoTools 1 wTcGhost [] rfl

/-! ## Claim theorems: the orchestrator -/

/-- C2: for an inbound message `M` routed to a registered agent, if the
agent's execution loop returns a response `R`, the routing step `reply`s
`R` on the outbound channel, and additionally re-enqueues `R` on the
inbound channel (a `send`) if and only if `R.to` names a currently
registered agent and differs from `M.sender`. -/
theorem forwarding_rule (agents : Registry) (oracle : Oracle)
    (M : Message) (agent : Agent) (R : Message)
    (hA : lookupAgent agents M.«to» = some agent)
    (hR : (run_loop agent M oracle).2 = some R) :
    BusAction.reply R ∈ (routeStep agents oracle M).2
    ∧ (BusAction.send R ∈ (routeStep agents oracle M).2
        ↔ ((lookupAgent agents R.«to»).isSome ∧ R.«to» ≠ M.sender)) := by
  have hstep : (routeStep agents oracle M).2
      = if (lookupAgent agents R.«to»).isSome && R.«to» != M.sender
        then [BusAction.reply R, BusAction.send R]
        else [BusAction.reply R] := by
    simp [routeStep, hA, hR]
  rw [hstep]
  by_cases hb : ((lookupAgent agents R.«to»).isSome && R.«to» != M.sender)
      = true
  · rw [if_pos hb]
    rw [Bool.and_eq_true, bne_iff_ne] at hb
    refine ⟨by simp, ?_, ?_⟩
    · intro _
      exact ⟨hb.1, hb.2⟩
    · intro _
      simp
  · rw [if_neg hb]
    rw [Bool.and_eq_true, bne_iff_ne] at hb
    refine ⟨by simp, ?_, ?_⟩
    · intro hmem
      simp at hmem
    · rintro ⟨h1, h2⟩
      exact absurd ⟨h1, h2⟩ hb

/-- An oracle that answers with text and no tool calls. -/
def wOracleText : Oracle := fun _ _ _ => { content := some "done" }

def wRegistry : Registry := [("a", wAgentNoTools)]

theorem forwarding_rule_witness :
    BusAction.reply ⟨"a", "user", "done"⟩
        ∈ (routeStep wRegistry wOracleText wTrigger).2
    ∧ (BusAction.send ⟨"a", "user", "done"⟩
          ∈ (routeStep wRegistry wOracleText wTrigger).2
        ↔ ((lookupAgent wRegistry "user").isSome
            ∧ "user" ≠ wTrigger.sender)) :=
  forwarding_rule wRegistry wOracleText wTrigger wAgentNoTools
    ⟨"a", "user", "done"⟩ rfl rfl

/-- C5: a message whose `to` resolves to no registered agent does not
crash the Orchestrator: the routing step publishes exactly one Message
with sender `"system"`, addressed to the original sender, whose content
names the unresolved agent, and the run continues with the next inbound
message. -/
theorem unresolved_agent_system_reply (agents : Registry)
    (oracle : Oracle) (m : Message) (rest : List Message) (fuel : Nat)
    (h : lookupAgent agents m.«to» = none) :
    orchestratorRun agents oracle (fuel + 1) (m :: rest)
      = (messageRoutedEvent m
            :: (orchestratorRun agents oracle fuel rest).1,
         (⟨"system", m.sender, "No agent named '" ++ m.«to» ++ "'"⟩ : Message)
            :: (orchestratorRun agents oracle fuel rest).2) := by
  simp [orchestratorRun, routeStep, h, noAgentReply, repliesOf, sendsOf]

theorem unresolved_agent_system_reply_witness :
    orchestratorRun wRegistry wOracleText 1 [⟨"user", "ghost", "hi"⟩]
      = ([messageRoutedEvent ⟨"user", "ghost", "hi"⟩],
         [⟨"system", "user", "No agent named '" ++ "ghost" ++ "'"⟩]) :=
  unresolved_agent_system_reply wRegistry wOracleText
    ⟨"user", "ghost", "hi"⟩ [] 0 rfl

/-- C9: the system-authored error reply for a message addressed to an
unregistered agent is only published (`reply`), never re-enqueued
(`send`) — even though its `to` (the original sender) may itself name a
registered agent, the forwarding rule is not applied on this path. -/
theorem system_reply_not_forwarded (agents : Registry) (oracle : Oracle)
    (m : Message) (h : lookupAgent agents m.«to» = none) :
    (routeStep agents oracle m).2
      = [BusAction.reply
          ⟨"system", m.sender, "No agent named '" ++ m.«to» ++ "'"⟩]
    ∧ sendsOf (routeStep agents oracle m).2 = [] := by
  constructor
  · simp [routeStep, h, noAgentReply]
  · simp [routeStep, h, noAgentReply, sendsOf]

theorem system_reply_not_forwarded_witness :
    ((lookupAgent wRegistry "a").isSome = true)
    ∧ (routeStep wRegistry wOracleText ⟨"a", "ghost", "hi"⟩).2
        = [BusAction.reply
            ⟨"system", "a", "No agent named '" ++ "ghost" ++ "'"⟩]
    ∧ sendsOf (routeStep wRegistry wOracleText ⟨"a", "ghost", "hi"⟩).2
        = [] :=
  ⟨rfl,
   (system_reply_not_forwarded wRegistry wOracleText
      ⟨"a", "ghost", "hi"⟩ rfl).1,
   (system_reply_not_forwarded wRegistry wOracleText
      ⟨"a", "ghost", "hi"⟩ rfl).2⟩

/-- C6 counterexample: a toolless agent need not finish in one THINK
cycle — nothing in `run_loop` stops the backend from requesting a tool
invocation even when no tool schemas were offered. With `wOracleTools`
(which always requests a tool call) a toolless agent with
`max_iterations = 2` makes two `llm_call`s, not one, and returns the
iteration-limit fallback rather than the model's text. -/
theorem toolless_one_cycle_counterexample :
    wAgentNoTools.tools = []
    ∧ (run_loop wAgentNoTools wTrigger wOracleTools).1.countP
        (fun e => e.kind == "llm_call") ≠ 1
    ∧ (run_loop wAgentNoTools wTrigger wOracleTools).1.countP
        (fun e => e.kind == "llm_call") = 2 := by
  refine ⟨rfl, ?_, ?_⟩ <;> decide

/-- C6 (amended): for a registered agent with no tools (and positive
`max_iterations`, per the data model) and a trigger message addressed to
it, if the model backend returns no tool invocations on the call, the
execution loop terminates after exactly one THINK cycle — the event
trace is `loop_start`, one `llm_call`, one `llm_response` — and returns
a Message whose `to` is the trigger's sender and whose content is the
model's text, or the empty string if the model returned none. -/
theorem toolless_one_cycle (agent : Agent) (trigger : Message)
    (oracle : Oracle) (htools : agent.tools = [])
    (hiter : 0 < agent.max_iterations)
    (hresp : (loopResponse agent oracle
        [CtxItem.system agent.instructions,
         CtxItem.user trigger.content]).tool_calls = []) :
    ((run_loop agent trigger oracle).1.map Event.kind
        = ["loop_start", "llm_call", "llm_response"])
    ∧ ((run_loop agent trigger oracle).2
        = some ⟨agent.name, trigger.sender,
            (loopResponse agent oracle
              [CtxItem.system agent.instructions,
               CtxItem.user trigger.content]).content.getD ""⟩) := by
  obtain ⟨k, hk⟩ : ∃ k, agent.max_iterations = k + 1 :=
    ⟨agent.max_iterations - 1, by omega⟩
  constructor <;>
    simp [run_loop, hk, loopFrom, hresp]

def wAgentEcho : Agent :=
  { name := "a", instructions := "i", tools := [], model := "m",
    max_iterations := 10 }

theorem toolless_one_cycle_witness :
    ((run_loop wAgentEcho wTrigger wOracleText).1.map Event.kind
        = ["loop_start", "llm_call", "llm_response"])
    ∧ ((run_loop wAgentEcho wTrigger wOracleText).2
        = some ⟨"a", "user",
            (loopResponse wAgentEcho wOracleText
              [CtxItem.system wAgentEcho.instructions,
               CtxItem.user wTrigger.content]).content.getD ""⟩) :=
  toolless_one_cycle wAgentEcho wTrigger wOracleText rfl (by decide) rfl

/-! ## Claim theorems: triggers -/

/-- No step of the timer system ever raises the `_running` flag again:
once false, it stays false. -/
lemma TimerStep.running_mono {s s' : TimerState} {l : TimerLabel}
    (hstep : TimerStep s l s') (h : s.running = false) :
    s'.running = false := by
  cases hstep <;> simp_all

/-- From a state whose `_running` flag is already false, no trace of the
timer system ever contains a `send`: the flag is re-checked before every
send. -/
lemma timer_no_send_of_not_running {s : TimerState}
    {ls : List TimerLabel} (htrace : TimerTraces s ls)
    (h : s.running = false) : TimerLabel.send ∉ ls := by
  induction htrace with
  | nil => simp
  | cons hstep htail ih =>
    intro hmem
    rcases List.mem_cons.mp hmem with hmem | hmem
    · subst hmem
      cases hstep <;> simp_all
    · exact ih (hstep.running_mono h) hmem

/-- C7: once `stop()` has cleared the `_running` flag, the timer trigger
never sends another message: in any interleaved execution of
`TimerTrigger.start` and `stop()`, no `send` occurs after the `stopped`
step — at most the sleep in progress completes, and the flag check after
each sleep and before each send observes false from then on. -/
theorem timer_no_send_after_stop (s : TimerState)
    (pre post : List TimerLabel)
    (h : TimerTraces s (pre ++ TimerLabel.stopped :: post)) :
    TimerLabel.send ∉ post := by
  induction pre generalizing s with
  | nil =>
    cases h with
    | cons hstep htail =>
      cases hstep
      exact timer_no_send_of_not_running htail rfl
  | cons l pre ih =>
    cases h with
    | cons hstep htail => exact ih _ htail

theorem timer_no_send_after_stop_witness :
    TimerLabel.send ∉ [TimerLabel.tau, TimerLabel.tau] :=
  timer_no_send_after_stop ⟨TimerPC.guard, true⟩ [TimerLabel.tau]
    [TimerLabel.tau, TimerLabel.tau]
    (TimerTraces.cons TimerStep.guard_true
      (TimerTraces.cons (TimerStep.stop TimerPC.sleeping true)
        (TimerTraces.cons (TimerStep.sleep_done false)
          (TimerTraces.cons TimerStep.check_false
            (TimerTraces.nil ⟨TimerPC.guard, false⟩)))))

/-- C10: a `FileWatchTrigger`'s last-observed modification time is
initialised to `0.0`, so on the first poll after `start()` it sends a
message for any existing watched file whose modification time is
positive — even one last modified before the trigger was created and
never touched again. -/
theorem filewatch_first_poll_fires (name path : String) (m : ℚ)
    (content : String) (hm : 0 < m) :
    (fileWatchPoll
        (FileWatchTrigger.startFlag
          { agent_name := name, watch_path := path })
        (some (m, content))).2
      = some ⟨"file_watch", name,
          "File changed: " ++ path ++ "\n\nContents:\n" ++ content⟩ := by
  simp [fileWatchPoll, FileWatchTrigger.startFlag, hm]

theorem filewatch_first_poll_fires_witness :
    (fileWatchPoll
        (FileWatchTrigger.startFlag
          { agent_name := "a", watch_path := "p" })
        (some ((5 : ℚ), "text"))).2
      = some ⟨"file_watch", "a",
          "File changed: " ++ "p" ++ "\n\nContents:\n" ++ "text"⟩ :=
  filewatch_first_poll_fires "a" "p" 5 "text" (by norm_num)
